import Mathlib

/-!
Shallow embedding of `afm/cli.py`: the phone-number formatter `format_cell`,
the `dedup` CSV filter, the `sms` carrier-lookup enrichment, the `purchase`
command (order building, confirmation gate, per-number purchase/attach), and
the `purchase_bulk` buying loop.  Python strings are modelled as `List Char`
(or `String` where character-level detail is irrelevant), the Twilio client
and the interactive operator as explicit oracle functions, exceptions as
`Bool`-valued success oracles, and CSV rows as association lists or
structures.
-/

namespace Afm

/-- Characters removed by Python `str.strip()` for ASCII input:
space, tab, newline, carriage return, vertical tab, form feed. -/
def isPySpace (c : Char) : Bool :=
  (c == ' ') || (c == Char.ofNat 9) || (c == Char.ofNat 10) ||
    (c == Char.ofNat 13) || (c == Char.ofNat 11) || (c == Char.ofNat 12)

/-- Python `s.strip()`: drop leading and trailing whitespace. -/
def pyStrip (s : List Char) : List Char :=
  ((s.dropWhile isPySpace).reverse.dropWhile isPySpace).reverse

/-- Python `s.replace(c, '')` for a one-character pattern:
remove every occurrence of `c`. -/
def pyRemove (s : List Char) (c : Char) : List Char :=
  s.filter (fun a => !(a == c))

/-- Python `s[-10:]`: the last (at most) ten characters. -/
def lastTen (s : List Char) : List Char :=
  s.drop (s.length - 10)

/-- The preprocessing chain of `format_cell` in `afm/cli.py`:
`cell.strip()`, then `.replace(' ', '')`, `.replace('(', '')`,
`.replace(')', '')`, `.replace('-', '')`, in source order. -/
def pyProcessed (cell : List Char) : List Char :=
  pyRemove (pyRemove (pyRemove (pyRemove (pyStrip cell) ' ') '(') ')') '-'

/-- `format_cell` from `afm/cli.py`: strip and remove formatting characters,
take the last ten characters (`cell[-10:]`), and prepend `+1`. -/
def format_cell (cell : List Char) : List Char :=
  '+' :: '1' :: lastTen (pyProcessed cell)

/-- A CSV row as read by `csv.DictReader`: an ordered association list from
column names to cell values. -/
def Row : Type := List (String × List Char)

/-- Python `row[k]` on a `DictReader` row, made fallible: `none` models the
`KeyError` that aborts the command. -/
def rowGet (row : Row) (k : String) : Option (List Char) :=
  (List.find? (fun p => p.1 == k) row).map (fun p => p.2)

/-- The subset set built by `dedup` in `afm/cli.py`:
`set([format_cell(row['contact[cell]']) for row in subset_reader])`,
modelled as a list whose membership is the set membership. -/
def subsetSetOf (T : List Row) : Option (List (List Char)) :=
  T.mapM (fun t => (rowGet t "contact[cell]").map format_cell)

/-- The superset loop of `dedup`: for each row, keep it (append to the output
and bump `untouched_count`) when `format_cell(row['cell'])` is not in the
subset set, otherwise bump `dup_count`.  Returns
(kept rows, dup count, untouched count). -/
def dedupLoop (subsetNumbers : List (List Char)) :
    List Row → Option (List Row × Nat × Nat)
  | [] => some ([], 0, 0)
  | row :: rest =>
    match rowGet row "cell" with
    | none => none
    | some v =>
      match dedupLoop subsetNumbers rest with
      | none => none
      | some (kept, dups, untouched) =>
        if subsetNumbers.contains (format_cell v) then
          some (kept, dups + 1, untouched)
        else
          some (row :: kept, dups, untouched + 1)

/-- The `dedup` command of `afm/cli.py` over already-parsed rows: build the
subset set, then filter the superset rows through it. -/
def dedup (S T : List Row) : Option (List Row × Nat × Nat) :=
  match subsetSetOf T with
  | none => none
  | some subsetNumbers => dedupLoop subsetNumbers S

/-- An error-log row as consumed by the `sms` command: its `ErrorCode` and
`To` columns (other columns pass through unchanged and are irrelevant here). -/
structure SmsRow where
  errorCode : String
  toNumber : String
deriving DecidableEq

/-- The observable outcome of the `sms` command: output rows (each input row
paired with its `Carrier` value, empty when no lookup was done), the
`error_count` and `carrier_count` tallies (`defaultdict(int)` modelled as a
function defaulting to zero), and the list of carrier-lookup keys issued to
the provider, in order. -/
structure SmsOut where
  outRows : List (SmsRow × String)
  errorCount : String → Nat
  carrierCount : String → Nat
  lookups : List String

/-- `defaultdict(int)` increment: `counter[k] += 1`. -/
def bump (f : String → Nat) (k : String) : String → Nat :=
  fun x => if x == k then f x + 1 else f x

/-- The per-row body of the `sms` loop in `afm/cli.py`: tally the error code;
when it equals `'30007'`, look up the carrier for `f'+1{destination}'` where
`destination = row['To']`, record the carrier name in the new `Carrier`
column and tally it; otherwise the row passes through with an empty
`Carrier` value (the `DictWriter` default for the missing key). -/
def smsStep (carrierOf : String → String) (acc : SmsOut) (row : SmsRow) : SmsOut :=
  let ec := bump acc.errorCount row.errorCode
  if row.errorCode == "30007" then
    let key := "+1" ++ row.toNumber
    let carrier_name := carrierOf key
    ⟨acc.outRows ++ [(row, carrier_name)], ec,
      bump acc.carrierCount carrier_name, acc.lookups ++ [key]⟩
  else
    ⟨acc.outRows ++ [(row, "")], ec, acc.carrierCount, acc.lookups⟩

/-- Initial state of the `sms` command: no rows written, empty tallies, no
lookups performed. -/
def smsInit : SmsOut :=
  ⟨[], fun _ => 0, fun _ => 0, []⟩

/-- The `sms` command of `afm/cli.py` over parsed rows, with the Twilio
carrier-lookup client abstracted as the oracle `carrierOf`. -/
def sms (carrierOf : String → String) (rows : List SmsRow) : SmsOut :=
  rows.foldl (smsStep carrierOf) smsInit

/-- The environment of the `purchase` command: the Twilio client and the
interactive operator as oracles.  `avail` is
`client.available_phone_numbers('US').local.list(area_code=ac)` (the
`phone_number` fields, in provider order); `purchaseOk`/`purchaseErr` model
whether `client.incoming_phone_numbers.create(phone_number=n)` raises and the
exception text; `attachOk`/`attachErr` likewise model the messaging-service
attach block; `acceptReduced` is the operator's answer to the per-area-code
reduced-quantity prompt; `finalConfirm` is the answer to the final
`Is this correct?` prompt. -/
structure PurchaseEnv where
  avail : String → List String
  purchaseOk : String → Bool
  purchaseErr : String → String
  attachOk : String → Bool
  attachErr : String → String
  acceptReduced : String → Bool
  finalConfirm : Bool

/-- Python dict assignment `purchase_order[area_code] = v`: replace the value
in place when the key exists (insertion order preserved), else append. -/
def dictInsert (d : List (String × List String)) (k : String) (v : List String) :
    List (String × List String) :=
  if d.any (fun p => p.1 == k) then
    d.map (fun p => if p.1 == k then (k, v) else p)
  else d ++ [(k, v)]

/-- One iteration of the order-building loop of `purchase` in `afm/cli.py`:
skip the area code when no numbers are available; when fewer are available
than requested and neither `auto_purchase` nor the operator accepts the
reduced quantity, skip it; otherwise store `numbers[0:requested_quantity]`
under the area code. -/
def buildStep (env : PurchaseEnv) (auto : Bool) (d : List (String × List String))
    (req : String × Nat) : List (String × List String) :=
  let numbers := env.avail req.1
  if numbers.length == 0 then d
  else if decide (numbers.length < req.2) && !auto && !(env.acceptReduced req.1) then d
  else dictInsert d req.1 (numbers.take req.2)

/-- The purchase order built from the request CSV rows
`(area_code, quantity)`, by folding `buildStep` over them. -/
def buildOrder (env : PurchaseEnv) (auto : Bool) (requests : List (String × Nat)) :
    List (String × List String) :=
  requests.foldl (buildStep env auto) []

/-- The contribution of a single request row to the purchase order: `none`
when the row is skipped, otherwise the stored entry.  Under distinct area
codes, `buildOrder` is the `filterMap` of this function (proved below). -/
def buildChoice (env : PurchaseEnv) (auto : Bool) (req : String × Nat) :
    Option (String × List String) :=
  let numbers := env.avail req.1
  if numbers.length == 0 then none
  else if decide (numbers.length < req.2) && !auto && !(env.acceptReduced req.1) then none
  else some (req.1, numbers.take req.2)

/-- One output-CSV row of `purchase`: `area_code, number, purchase_status,
service_status, message` (`none` models a field left unset). -/
structure ResultRow where
  area_code : String
  number : String
  purchase_status : String
  service_status : Option String
  message : Option String
deriving DecidableEq

/-- The per-number body of the `purchase` loop: try to buy the number,
recording `success` or `error` plus the exception text; then — whenever a
service sid was supplied, regardless of the purchase outcome — run the attach
block, recording `service_status` and on failure overwriting `message` with
the attach exception text. -/
def processNumber (env : PurchaseEnv) (svc : Option String) (ac num : String) :
    ResultRow :=
  let base : ResultRow :=
    if env.purchaseOk num then ⟨ac, num, "success", none, none⟩
    else ⟨ac, num, "error", none, some (env.purchaseErr num)⟩
  match svc with
  | none => base
  | some _ =>
    if env.attachOk num then
      ⟨base.area_code, base.number, base.purchase_status, some "success", base.message⟩
    else
      ⟨base.area_code, base.number, base.purchase_status, some "error",
        some (env.attachErr num)⟩

/-- The observable outcome of `purchase`: the provider purchase calls issued
(as `(area_code, number)`, in order), the numbers for which the
service-attach block was entered, the output rows written, and whether the
run was aborted at the final confirmation. -/
structure PurchaseOutcome where
  purchaseCalls : List (String × String)
  attachAttempts : List String
  rows : List ResultRow
  aborted : Bool
deriving DecidableEq

/-- State update for one number inside the purchase loop: issue the purchase
call, enter the attach block iff a service sid was supplied, and append
exactly one output row. -/
def stepNumber (env : PurchaseEnv) (svc : Option String) (ac : String)
    (acc : PurchaseOutcome) (num : String) : PurchaseOutcome :=
  ⟨acc.purchaseCalls ++ [(ac, num)],
    acc.attachAttempts ++ (match svc with | none => [] | some _ => [num]),
    acc.rows ++ [processNumber env svc ac num],
    acc.aborted⟩

/-- The confirmed-order phase of `purchase`: the two nested `for` loops over
the purchase order. -/
def runOrder (env : PurchaseEnv) (svc : Option String)
    (order : List (String × List String)) : PurchaseOutcome :=
  order.foldl (fun acc p => p.2.foldl (stepNumber env svc p.1) acc) ⟨[], [], [], false⟩

/-- The `purchase` command of `afm/cli.py`: build the order from the request
rows, present it, and only when the operator confirms run the purchase loops;
declining (`click.confirm(..., abort=True)`) aborts with nothing done. -/
def purchase (env : PurchaseEnv) (requests : List (String × Nat)) (auto : Bool)
    (svc : Option String) : PurchaseOutcome :=
  let order := buildOrder env auto requests
  if env.finalConfirm then runOrder env svc order
  else ⟨[], [], [], true⟩

/-- Flatten a purchase order into the `(area_code, number)` pairs its loops
visit, in order. -/
def pairsOf : List (String × List String) → List (String × String)
  | [] => []
  | p :: rest => p.2.map (fun n => (p.1, n)) ++ pairsOf rest

/-- Number of purchase attempts issued for a given area code. -/
def attemptsFor (out : PurchaseOutcome) (ac : String) : Nat :=
  (out.purchaseCalls.filter (fun p => p.1 == ac)).length

/-- The numbers for which purchase attempts were issued in a given area code,
in order. -/
def numbersFor (out : PurchaseOutcome) (ac : String) : List String :=
  (out.purchaseCalls.filter (fun p => p.1 == ac)).map (fun p => p.2)

/-- A provider/operator environment with three numbers available in area code
313 where every purchase and every attach call fails; all prompts are
answered yes. -/
def envFail : PurchaseEnv :=
  ⟨fun ac => if ac == "313"
      then ["+13135550100", "+13135550101", "+13135550102"] else [],
    fun _ => false, fun _ => "purchase failed",
    fun _ => false, fun _ => "attach failed",
    fun _ => true, true⟩

/-- A provider/operator environment with three numbers available in area code
313 where every call succeeds; all prompts are answered yes. -/
def envOk : PurchaseEnv :=
  ⟨fun ac => if ac == "313"
      then ["+13135550100", "+13135550101", "+13135550102"] else [],
    fun _ => true, fun _ => "",
    fun _ => true, fun _ => "",
    fun _ => true, true⟩

/-- Like `envOk`, but the operator declines the final confirmation. -/
def envNoConfirm : PurchaseEnv :=
  ⟨fun ac => if ac == "313"
      then ["+13135550100", "+13135550101", "+13135550102"] else [],
    fun _ => true, fun _ => "",
    fun _ => true, fun _ => "",
    fun _ => true, false⟩

/-- The inner `buy_numbers` pass of `purchase_bulk` in `afm/cli.py`, run on
one query result: for each available number, a successful purchase decrements
the shared counter `x['count']` and, when the counter drops below 1, returns
`False` (stop); a failed purchase skips the number (`continue`) without
touching the counter; reaching the end of the list — including the case of an
empty list — returns `True` (query again).  The attach block does not affect
the counter or the return value and is omitted.  Returns the new counter
value and the Python return value. -/
def buyNumbersPass (purchaseOk : String → Bool) : List String → Int → Int × Bool
  | [], c => (c, true)
  | n :: rest, c =>
    if purchaseOk n then
      if c - 1 < 1 then (c - 1, false)
      else buyNumbersPass purchaseOk rest (c - 1)
    else buyNumbersPass purchaseOk rest c

/-- The outer `while buy_numbers(): pass` loop of `purchase_bulk`, with fuel:
`availQuery pass` is the provider's answer to the availability query on the
given pass, `c` the counter (initialized to 400 in the source).  Returns
`some` of the final counter when the loop exits within the fuel bound, and
`none` when it does not terminate in that many passes. -/
def bulkLoop (availQuery : Nat → List String) (purchaseOk : String → Bool) :
    Nat → Nat → Int → Option Int
  | 0, _, _ => none
  | fuel + 1, pass, c =>
    let r := buyNumbersPass purchaseOk (availQuery pass) c
    if r.2 then bulkLoop availQuery purchaseOk fuel (pass + 1) r.1
    else some r.1

theorem dropWhile_eq_self_of_all (p : Char → Bool) (s : List Char)
    (h : ∀ c ∈ s, p c = false) : s.dropWhile p = s := by
  cases s with
  | nil => rfl
  | cons a t =>
    rw [List.dropWhile_cons, h a (List.mem_cons_self a t)]
    simp

theorem pyStrip_eq_self (s : List Char)
    (h : ∀ c ∈ s, isPySpace c = false) : pyStrip s = s := by
  unfold pyStrip
  rw [dropWhile_eq_self_of_all _ _ h]
  rw [dropWhile_eq_self_of_all _ _ (fun c hc => h c (List.mem_reverse.mp hc))]
  exact s.reverse_reverse

theorem pyRemove_eq_self (s : List Char) (x : Char)
    (h : ∀ c ∈ s, (c == x) = false) : pyRemove s x = s := by
  unfold pyRemove
  induction s with
  | nil => rfl
  | cons a t ih =>
    rw [List.filter_cons]
    rw [h a (List.mem_cons_self a t)]
    simp only [Bool.not_false, if_pos]
    rw [ih (fun c hc => h c (List.mem_cons_of_mem a hc))]

theorem beq_false_of_isDigit (c x : Char) (h : c.isDigit = true)
    (hx : x.isDigit = false) : (c == x) = false := by
  cases hcx : c == x with
  | false => rfl
  | true =>
    have hce : c = x := eq_of_beq hcx
    rw [hce, hx] at h
    exact absurd h (by simp)

theorem isPySpace_false_of_isDigit (c : Char) (h : c.isDigit = true) :
    isPySpace c = false := by
  unfold isPySpace
  rw [beq_false_of_isDigit c ' ' h (by decide)]
  rw [beq_false_of_isDigit c (Char.ofNat 9) h (by decide)]
  rw [beq_false_of_isDigit c (Char.ofNat 10) h (by decide)]
  rw [beq_false_of_isDigit c (Char.ofNat 13) h (by decide)]
  rw [beq_false_of_isDigit c (Char.ofNat 11) h (by decide)]
  rw [beq_false_of_isDigit c (Char.ofNat 12) h (by decide)]
  rfl

theorem canonical_no_pyspace (d : List Char) (hdig : ∀ c ∈ d, c.isDigit = true) :
    ∀ c ∈ ('+' :: '1' :: d), isPySpace c = false := by
  intro c hc
  rcases List.mem_cons.mp hc with h1 | hc2
  · rw [h1]; decide
  rcases List.mem_cons.mp hc2 with h2 | hd
  · rw [h2]; decide
  · exact isPySpace_false_of_isDigit c (hdig c hd)

theorem canonical_no_removed (d : List Char) (hdig : ∀ c ∈ d, c.isDigit = true)
    (x : Char) (hx : x.isDigit = false) (hp : ('+' == x) = false)
    (h1 : ('1' == x) = false) :
    ∀ c ∈ ('+' :: '1' :: d), (c == x) = false := by
  intro c hc
  rcases List.mem_cons.mp hc with hc1 | hc2
  · rw [hc1]; exact hp
  rcases List.mem_cons.mp hc2 with hc3 | hd
  · rw [hc3]; exact h1
  · exact beq_false_of_isDigit c x (hdig c hd) hx

theorem pyProcessed_canonical (d : List Char) (hdig : ∀ c ∈ d, c.isDigit = true) :
    pyProcessed ('+' :: '1' :: d) = '+' :: '1' :: d := by
  unfold pyProcessed
  rw [pyStrip_eq_self _ (canonical_no_pyspace d hdig)]
  rw [pyRemove_eq_self _ ' ' (canonical_no_removed d hdig ' ' (by decide) (by decide) (by decide))]
  rw [pyRemove_eq_self _ '(' (canonical_no_removed d hdig '(' (by decide) (by decide) (by decide))]
  rw [pyRemove_eq_self _ ')' (canonical_no_removed d hdig ')' (by decide) (by decide) (by decide))]
  rw [pyRemove_eq_self _ '-' (canonical_no_removed d hdig '-' (by decide) (by decide) (by decide))]

theorem format_cell_canonical_fixed (d : List Char) (hlen : d.length = 10)
    (hdig : ∀ c ∈ d, c.isDigit = true) :
    format_cell ('+' :: '1' :: d) = '+' :: '1' :: d := by
  unfold format_cell
  rw [pyProcessed_canonical d hdig]
  unfold lastTen
  simp [hlen]

/-- Claim C4 counterexample: for the input `"517"`, `format_cell` returns
`"+1517"`, which is not `+1` followed by ten digits (its length is 5, not 12),
refuting the universally quantified claim. -/
theorem format_cell_ten_digits_cex :
    format_cell "517".toList = "+1517".toList ∧
      (format_cell "517".toList).length ≠ 12 := by
  constructor
  · rfl
  · decide

/-- Claim C4 (amended): for every input whose processed remainder
(whitespace-stripped, with spaces, parentheses and hyphens removed) has at
least ten characters, the last ten of which are digits, `format_cell` returns
exactly `+1` followed by those ten trailing digits. -/
theorem format_cell_ten_digits (x : List Char)
    (h10 : 10 ≤ (pyProcessed x).length)
    (hdig : (lastTen (pyProcessed x)).all Char.isDigit = true) :
    format_cell x = '+' :: '1' :: lastTen (pyProcessed x) ∧
      (format_cell x).length = 12 ∧
      (format_cell x).drop 2 = lastTen (pyProcessed x) ∧
      ((format_cell x).drop 2).all Char.isDigit = true := by
  refine ⟨rfl, ?_, rfl, hdig⟩
  show ('+' :: '1' :: lastTen (pyProcessed x)).length = 12
  have hlt : (lastTen (pyProcessed x)).length = 10 := by
    unfold lastTen
    rw [List.length_drop]
    omega
  simp [hlt]

/-- Claim C4 witness: the spec example `"(517) 555-1234"` satisfies the
hypotheses and formats to `+15175551234`. -/
theorem format_cell_ten_digits_witness :
    format_cell "(517) 555-1234".toList =
        '+' :: '1' :: lastTen (pyProcessed "(517) 555-1234".toList) ∧
      (format_cell "(517) 555-1234".toList).length = 12 ∧
      (format_cell "(517) 555-1234".toList).drop 2 =
        lastTen (pyProcessed "(517) 555-1234".toList) ∧
      ((format_cell "(517) 555-1234".toList).drop 2).all Char.isDigit = true :=
  format_cell_ten_digits "(517) 555-1234".toList (by decide) (by decide)

/-- Claim C9 counterexample: `format_cell` is not idempotent on every string;
for `"555-1234"` it yields `"+15551234"`, and a second application yields
`"+1+15551234"`. -/
theorem format_cell_idempotent_cex :
    format_cell (format_cell "555-1234".toList) ≠ format_cell "555-1234".toList := by
  decide

/-- Claim C9 (amended): `format_cell` is idempotent on every already-canonical
input of the form `+1` followed by ten digits (indeed such inputs are fixed
points, so a second application changes nothing). -/
theorem format_cell_idempotent_canonical (d : List Char) (hlen : d.length = 10)
    (hdig : ∀ c ∈ d, c.isDigit = true) :
    format_cell (format_cell ('+' :: '1' :: d)) = format_cell ('+' :: '1' :: d) := by
  rw [format_cell_canonical_fixed d hlen hdig]
  exact format_cell_canonical_fixed d hlen hdig

/-- Claim C9 witness: idempotence at the canonical number `+15175551234`. -/
theorem format_cell_idempotent_canonical_witness :
    format_cell (format_cell ('+' :: '1' :: "5175551234".toList)) =
      format_cell ('+' :: '1' :: "5175551234".toList) :=
  format_cell_idempotent_canonical "5175551234".toList (by decide) (by decide)

theorem dedupLoop_spec (subsetNumbers : List (List Char)) (S : List Row)
    (kept : List Row) (dups untouched : Nat)
    (h : dedupLoop subsetNumbers S = some (kept, dups, untouched)) :
    kept = S.filter (fun row =>
        match rowGet row "cell" with
        | some v => !(subsetNumbers.contains (format_cell v))
        | none => false) ∧
      dups + untouched = S.length := by
  induction S generalizing kept dups untouched with
  | nil =>
    simp only [dedupLoop, Option.some.injEq, Prod.mk.injEq] at h
    obtain ⟨h1, h2, h3⟩ := h
    constructor
    · rw [← h1]; rfl
    · simp only [List.length_nil]; omega
  | cons row rest ih =>
    cases hv : rowGet row "cell" with
    | none =>
      simp only [dedupLoop, hv] at h
      exact Option.noConfusion h
    | some v =>
      cases hr : dedupLoop subsetNumbers rest with
      | none =>
        simp only [dedupLoop, hv, hr] at h
        exact Option.noConfusion h
      | some res =>
        obtain ⟨kept0, dups0, untouched0⟩ := res
        obtain ⟨hk, hc⟩ := ih kept0 dups0 untouched0 hr
        simp only [dedupLoop, hv, hr] at h
        by_cases hm : format_cell v ∈ subsetNumbers
        · rw [if_pos (by simpa using hm)] at h
          simp only [Option.some.injEq, Prod.mk.injEq] at h
          obtain ⟨h1, h2, h3⟩ := h
          refine ⟨?_, by simp only [List.length_cons]; omega⟩
          rw [← h1, hk]
          simp [List.filter_cons, hv, hm]
        · rw [if_neg (by simpa using hm)] at h
          simp only [Option.some.injEq, Prod.mk.injEq] at h
          obtain ⟨h1, h2, h3⟩ := h
          refine ⟨?_, by simp only [List.length_cons]; omega⟩
          rw [← h1, hk]
          simp [List.filter_cons, hv, hm]

/-- Claim C3: whenever `dedup` succeeds on superset rows `S` and subset rows
`T`, the kept rows are exactly the filter of `S` (in order, the original row
objects and hence the original columns) keeping a row iff the `format_cell`
of its `cell` column is absent from the set of `format_cell` of the
`contact[cell]` column over `T`, and the two counters sum to the number of
rows in `S`. -/
theorem dedup_spec (S T : List Row) (subsetNumbers : List (List Char))
    (kept : List Row) (dups untouched : Nat)
    (hT : subsetSetOf T = some subsetNumbers)
    (h : dedup S T = some (kept, dups, untouched)) :
    kept = S.filter (fun row =>
        match rowGet row "cell" with
        | some v => !(subsetNumbers.contains (format_cell v))
        | none => false) ∧
      dups + untouched = S.length := by
  unfold dedup at h
  rw [hT] at h
  exact dedupLoop_spec subsetNumbers S kept dups untouched h

/-- Claim C3 witness: the spec end-to-end example — subset `contact[cell] =
5175551234`, superset rows `5175551234` and `5175559999`; only the second row
survives, with one removed and one remaining. -/
theorem dedup_spec_witness :
    [([("cell", "5175559999".toList)] : Row)] =
        ([[("cell", "5175551234".toList)], [("cell", "5175559999".toList)]] :
            List Row).filter (fun row =>
          match rowGet row "cell" with
          | some v => !(([format_cell "5175551234".toList]).contains (format_cell v))
          | none => false) ∧
      1 + 1 = ([[("cell", "5175551234".toList)], [("cell", "5175559999".toList)]] :
          List Row).length :=
  dedup_spec
    [[("cell", "5175551234".toList)], [("cell", "5175559999".toList)]]
    [[("contact[cell]", "5175551234".toList)]]
    [format_cell "5175551234".toList]
    [[("cell", "5175559999".toList)]] 1 1 rfl rfl

theorem sms_foldl_outRows (carrierOf : String → String) (rows : List SmsRow)
    (acc : SmsOut) :
    (rows.foldl (smsStep carrierOf) acc).outRows =
      acc.outRows ++ rows.map (fun r =>
        (r, if r.errorCode == "30007" then carrierOf ("+1" ++ r.toNumber) else "")) := by
  induction rows generalizing acc with
  | nil => simp
  | cons r rest ih =>
    rw [List.foldl_cons, ih]
    cases hr : r.errorCode == "30007" with
    | true => simp [smsStep, hr, eq_of_beq hr]
    | false =>
      have hne : r.errorCode ≠ "30007" := by simpa using hr
      simp [smsStep, hr, hne]

theorem sms_foldl_errorCount (carrierOf : String → String) (rows : List SmsRow)
    (acc : SmsOut) (k : String) :
    (rows.foldl (smsStep carrierOf) acc).errorCount k =
      acc.errorCount k + (rows.filter (fun r => r.errorCode == k)).length := by
  induction rows generalizing acc with
  | nil => simp
  | cons r rest ih =>
    rw [List.foldl_cons, ih]
    have hstep : (smsStep carrierOf acc r).errorCount = bump acc.errorCount r.errorCode := by
      unfold smsStep
      cases hr : r.errorCode == "30007" with
      | true => simp [hr]
      | false => simp [hr]
    rw [hstep]
    unfold bump
    by_cases hk : r.errorCode = k
    · subst hk
      simp [List.filter_cons]
      omega
    · have h1 : (k == r.errorCode) = false := by
        simp [beq_eq_false_iff_ne]
        exact fun he => hk he.symm
      have h2 : (r.errorCode == k) = false := by
        simp [beq_eq_false_iff_ne, hk]
      rw [h1]
      simp [List.filter_cons, h2]

theorem sms_foldl_lookups (carrierOf : String → String) (rows : List SmsRow)
    (acc : SmsOut) :
    (rows.foldl (smsStep carrierOf) acc).lookups =
      acc.lookups ++ (rows.filter (fun r => r.errorCode == "30007")).map
        (fun r => "+1" ++ r.toNumber) := by
  induction rows generalizing acc with
  | nil => simp
  | cons r rest ih =>
    rw [List.foldl_cons, ih]
    cases hr : r.errorCode == "30007" with
    | true => simp [smsStep, hr, List.filter_cons]
    | false => simp [smsStep, hr, List.filter_cons]

theorem sms_foldl_carrierCount (carrierOf : String → String) (rows : List SmsRow)
    (acc : SmsOut) (k : String) :
    (rows.foldl (smsStep carrierOf) acc).carrierCount k =
      acc.carrierCount k +
        ((rows.filter (fun r => r.errorCode == "30007")).filter
          (fun r => carrierOf ("+1" ++ r.toNumber) == k)).length := by
  induction rows generalizing acc with
  | nil => simp
  | cons r rest ih =>
    rw [List.foldl_cons, ih]
    cases hr : r.errorCode == "30007" with
    | true =>
      have hstep : (smsStep carrierOf acc r).carrierCount =
          bump acc.carrierCount (carrierOf ("+1" ++ r.toNumber)) := by
        unfold smsStep
        simp [hr]
      rw [hstep]
      unfold bump
      by_cases hk : k = carrierOf ("+1" ++ r.toNumber)
      · rw [if_pos (by simpa using hk)]
        simp [List.filter_cons, hr, hk]
        omega
      · rw [if_neg (by simpa using hk)]
        have h2 : (carrierOf ("+1" ++ r.toNumber) == k) = false := by
          simp only [beq_eq_false_iff_ne]
          exact fun he => hk he.symm
        simp [List.filter_cons, hr, h2]
    | false =>
      have hstep : (smsStep carrierOf acc r).carrierCount = acc.carrierCount := by
        unfold smsStep
        simp [hr]
      rw [hstep]
      simp [List.filter_cons, hr]

/-- Claim C7: the `sms` command emits one output row per input row in input
order — the row with its carrier name when its error code is `'30007'` and an
empty `Carrier` value otherwise —, tallies every row's error code, performs a
carrier lookup exactly for the `'30007'` rows, and tallies the returned
carrier names; in particular for rows with error codes
`["30007", "30005", "30007"]` the error tally is `30007 ↦ 2`, `30005 ↦ 1` and
exactly two lookups are performed. -/
theorem sms_spec :
    (∀ (carrierOf : String → String) (rows : List SmsRow),
      (sms carrierOf rows).outRows = rows.map (fun r =>
        (r, if r.errorCode == "30007" then carrierOf ("+1" ++ r.toNumber) else ""))) ∧
    (∀ (carrierOf : String → String) (rows : List SmsRow) (k : String),
      (sms carrierOf rows).errorCount k =
        (rows.filter (fun r => r.errorCode == k)).length) ∧
    (∀ (carrierOf : String → String) (rows : List SmsRow),
      (sms carrierOf rows).lookups =
        (rows.filter (fun r => r.errorCode == "30007")).map
          (fun r => "+1" ++ r.toNumber)) ∧
    ((sms (fun _ => "Verizon")
        [⟨"30007", "5551230001"⟩, ⟨"30005", "5551230002"⟩,
          ⟨"30007", "5551230003"⟩]).errorCount "30007" = 2 ∧
      (sms (fun _ => "Verizon")
        [⟨"30007", "5551230001"⟩, ⟨"30005", "5551230002"⟩,
          ⟨"30007", "5551230003"⟩]).errorCount "30005" = 1 ∧
      (sms (fun _ => "Verizon")
        [⟨"30007", "5551230001"⟩, ⟨"30005", "5551230002"⟩,
          ⟨"30007", "5551230003"⟩]).lookups.length = 2 ∧
      (sms (fun _ => "Verizon")
        [⟨"30007", "5551230001"⟩, ⟨"30005", "5551230002"⟩,
          ⟨"30007", "5551230003"⟩]).carrierCount "Verizon" = 2) := by
  refine ⟨?_, ?_, ?_, by decide, by decide, by decide, by decide⟩
  · intro carrierOf rows
    rw [sms, sms_foldl_outRows]
    simp [smsInit]
  · intro carrierOf rows k
    rw [sms, sms_foldl_errorCount]
    simp [smsInit]
  · intro carrierOf rows
    rw [sms, sms_foldl_lookups]
    simp [smsInit]

/-- Claim C10: every carrier-lookup key issued by `sms` is the literal string
`+1` prepended to the raw `To` value, with no stripping or canonicalization
(`format_cell` is not applied); in particular a row whose `To` value already
starts with `+1` produces the non-E.164 key `+1+15175551234`, which differs
from the canonicalized number. -/
theorem sms_lookup_key_raw :
    (∀ (carrierOf : String → String) (rows : List SmsRow),
      (sms carrierOf rows).lookups =
        (rows.filter (fun r => r.errorCode == "30007")).map
          (fun r => "+1" ++ r.toNumber)) ∧
    ((sms (fun _ => "Verizon") [⟨"30007", "+15175551234"⟩]).lookups =
      ["+1+15175551234"]) ∧
    ("+1+15175551234".toList ≠ format_cell "+15175551234".toList) := by
  refine ⟨?_, by decide, by decide⟩
  intro carrierOf rows
  rw [sms, sms_foldl_lookups]
  simp [smsInit]

theorem foldl_stepNumber (env : PurchaseEnv) (svc : Option String) (ac : String)
    (ns : List String) (acc : PurchaseOutcome) :
    ns.foldl (stepNumber env svc ac) acc =
      ⟨acc.purchaseCalls ++ ns.map (fun n => (ac, n)),
        acc.attachAttempts ++ (match svc with | none => [] | some _ => ns),
        acc.rows ++ ns.map (fun n => processNumber env svc ac n),
        acc.aborted⟩ := by
  induction ns generalizing acc with
  | nil => cases svc <;> simp
  | cons n rest ih =>
    rw [List.foldl_cons, ih]
    cases svc <;> simp [stepNumber]

theorem foldl_runOrder (env : PurchaseEnv) (svc : Option String)
    (order : List (String × List String)) (acc : PurchaseOutcome) :
    order.foldl (fun a p => p.2.foldl (stepNumber env svc p.1) a) acc =
      ⟨acc.purchaseCalls ++ pairsOf order,
        acc.attachAttempts ++
          (match svc with | none => [] | some _ => (pairsOf order).map (fun p => p.2)),
        acc.rows ++ (pairsOf order).map (fun p => processNumber env svc p.1 p.2),
        acc.aborted⟩ := by
  induction order generalizing acc with
  | nil => cases svc <;> simp [pairsOf]
  | cons e rest ih =>
    rw [List.foldl_cons, foldl_stepNumber, ih]
    cases svc <;> simp [pairsOf, List.map_map, Function.comp]

theorem purchase_components (env : PurchaseEnv) (requests : List (String × Nat))
    (auto : Bool) (svc : Option String) (hc : env.finalConfirm = true) :
    purchase env requests auto svc =
      ⟨pairsOf (buildOrder env auto requests),
        (match svc with
          | none => []
          | some _ => (pairsOf (buildOrder env auto requests)).map (fun p => p.2)),
        (pairsOf (buildOrder env auto requests)).map
          (fun p => processNumber env svc p.1 p.2),
        false⟩ := by
  unfold purchase runOrder
  rw [hc]
  simp only [foldl_runOrder]
  cases svc <;> simp

theorem processNumber_number (env : PurchaseEnv) (svc : Option String)
    (ac num : String) : (processNumber env svc ac num).number = num := by
  unfold processNumber
  cases svc with
  | none => cases h : env.purchaseOk num <;> simp [h]
  | some s =>
    cases h : env.purchaseOk num <;>
      cases h2 : env.attachOk num <;> simp [h, h2]

theorem processNumber_on_failure (env : PurchaseEnv) (svc : Option String)
    (ac num : String) (h : env.purchaseOk num = false) :
    (processNumber env svc ac num).purchase_status = "error" ∧
      (processNumber env svc ac num).message =
        some (match svc with
          | none => env.purchaseErr num
          | some _ =>
            if env.attachOk num then env.purchaseErr num else env.attachErr num) := by
  unfold processNumber
  cases svc with
  | none => simp [h]
  | some s => cases h2 : env.attachOk num <;> simp [h, h2]

/-- Claim C1 counterexample: with a service sid supplied and a failing
provider, the purchase of `+13135550100` fails (`purchase_status = error`),
yet the attach block is still entered for it — refuting "when the purchase of
a number fails, no attach attempt is made for it". -/
theorem purchase_attach_despite_failure_cex :
    (purchase envFail [("313", 1)] true (some "MG123")).attachAttempts =
        ["+13135550100"] ∧
      envFail.purchaseOk "+13135550100" = false ∧
      (purchase envFail [("313", 1)] true (some "MG123")).rows.map
          (fun r => r.purchase_status) = ["error"] := by
  exact ⟨rfl, rfl, rfl⟩

/-- Claim C1 (amended): for every number in the confirmed purchase order, the
attach attempt is made if and only if a service sid was supplied — regardless
of whether that number's purchase succeeded; the attach-block outcome is
recorded independently in `service_status`. -/
theorem purchase_attach_iff_service (env : PurchaseEnv)
    (requests : List (String × Nat)) (auto : Bool) (svc : Option String) :
    (purchase env requests auto svc).attachAttempts =
      (match svc with
        | none => []
        | some _ =>
          (purchase env requests auto svc).purchaseCalls.map (fun p => p.2)) := by
  cases hc : env.finalConfirm with
  | true =>
    rw [purchase_components env requests auto svc hc]
  | false =>
    unfold purchase
    rw [hc]
    cases svc <;> rfl

/-- Claim C6 counterexample: when a service sid is supplied and both the
purchase and the attach of a number fail, the purchase exception message is
overwritten by the attach exception message, so the output row does not carry
the purchase failure message as claimed. -/
theorem purchase_message_overwritten_cex :
    (purchase envFail [("313", 1)] true (some "MG123")).rows.map
        (fun r => (r.purchase_status, r.message)) =
      [("error", some "attach failed")] ∧
      ("attach failed" : String) ≠ "purchase failed" := by
  refine ⟨rfl, by decide⟩

/-- Claim C6 (amended): under a confirmed order, every number of the purchase
order is attempted — a failing purchase never prevents subsequent attempts —
and exactly one output row is written per attempt, in order, so the row count
equals the attempt count; a failed purchase is recorded on its row as
`purchase_status = error`, and the row's message is the purchase exception
message unless a service sid was supplied and the attach block also failed,
in which case the attach message overwrites it. -/
theorem purchase_failure_isolated (env : PurchaseEnv)
    (requests : List (String × Nat)) (auto : Bool) (svc : Option String)
    (hc : env.finalConfirm = true) :
    (purchase env requests auto svc).purchaseCalls =
        pairsOf (buildOrder env auto requests) ∧
      (purchase env requests auto svc).rows =
        (purchase env requests auto svc).purchaseCalls.map
          (fun p => processNumber env svc p.1 p.2) ∧
      (purchase env requests auto svc).rows.length =
        (purchase env requests auto svc).purchaseCalls.length ∧
      (∀ r ∈ (purchase env requests auto svc).rows,
        env.purchaseOk r.number = false →
          r.purchase_status = "error" ∧
            r.message = some (match svc with
              | none => env.purchaseErr r.number
              | some _ =>
                if env.attachOk r.number then env.purchaseErr r.number
                else env.attachErr r.number)) := by
  rw [purchase_components env requests auto svc hc]
  refine ⟨rfl, rfl, by simp, ?_⟩
  intro r hr hfail
  simp only [List.mem_map] at hr
  obtain ⟨p, _, hp⟩ := hr
  rw [← hp]
  rw [← hp, processNumber_number] at hfail
  rw [processNumber_number]
  exact processNumber_on_failure env svc p.1 p.2 hfail

/-- Claim C6 witness: the amended statement instantiated at a failing
provider with one requested number and no service sid. -/
theorem purchase_failure_isolated_witness :
    (purchase envFail [("313", 1)] true none).purchaseCalls =
        pairsOf (buildOrder envFail true [("313", 1)]) ∧
      (purchase envFail [("313", 1)] true none).rows =
        (purchase envFail [("313", 1)] true none).purchaseCalls.map
          (fun p => processNumber envFail none p.1 p.2) ∧
      (purchase envFail [("313", 1)] true none).rows.length =
        (purchase envFail [("313", 1)] true none).purchaseCalls.length ∧
      (∀ r ∈ (purchase envFail [("313", 1)] true none).rows,
        envFail.purchaseOk r.number = false →
          r.purchase_status = "error" ∧
            r.message = some (match (none : Option String) with
              | none => envFail.purchaseErr r.number
              | some _ =>
                if envFail.attachOk r.number then envFail.purchaseErr r.number
                else envFail.attachErr r.number)) :=
  purchase_failure_isolated envFail [("313", 1)] true none rfl

/-- Claim C8: if the operator declines the final `Is this correct?`
confirmation, the whole run aborts before anything is done: no purchase call
is issued, no attach block is entered, and no result row is written.  Since
the confirmation gate precedes the purchase loop in `purchase`, no purchase
call is ever issued before the operator confirms. -/
theorem purchase_abort_on_decline (env : PurchaseEnv)
    (requests : List (String × Nat)) (auto : Bool) (svc : Option String)
    (hc : env.finalConfirm = false) :
    (purchase env requests auto svc).purchaseCalls = [] ∧
      (purchase env requests auto svc).attachAttempts = [] ∧
      (purchase env requests auto svc).rows = [] ∧
      (purchase env requests auto svc).aborted = true := by
  unfold purchase
  rw [hc]
  exact ⟨rfl, rfl, rfl, rfl⟩

/-- Claim C8 witness: a declined confirmation with a non-empty order yields
no calls and no rows. -/
theorem purchase_abort_on_decline_witness :
    (purchase envNoConfirm [("313", 2)] true (some "MG123")).purchaseCalls = [] ∧
      (purchase envNoConfirm [("313", 2)] true (some "MG123")).attachAttempts = [] ∧
      (purchase envNoConfirm [("313", 2)] true (some "MG123")).rows = [] ∧
      (purchase envNoConfirm [("313", 2)] true (some "MG123")).aborted = true :=
  purchase_abort_on_decline envNoConfirm [("313", 2)] true (some "MG123") rfl

theorem buildChoice_key (env : PurchaseEnv) (auto : Bool) (req : String × Nat)
    (e : String × List String) (h : buildChoice env auto req = some e) :
    e.1 = req.1 := by
  simp only [buildChoice] at h
  by_cases h1 : ((env.avail req.1).length == 0) = true
  · rw [if_pos h1] at h
    exact Option.noConfusion h
  · rw [if_neg h1] at h
    by_cases h2 : (decide ((env.avail req.1).length < req.2) && !auto &&
        !(env.acceptReduced req.1)) = true
    · rw [if_pos h2] at h
      exact Option.noConfusion h
    · rw [if_neg h2] at h
      injection h with h
      rw [← h]

theorem buildStep_eq (env : PurchaseEnv) (auto : Bool)
    (d : List (String × List String)) (req : String × Nat)
    (h : ∀ p ∈ d, (p.1 == req.1) = false) :
    buildStep env auto d req =
      (match buildChoice env auto req with
        | none => d
        | some e => d ++ [e]) := by
  have hany : d.any (fun p => p.1 == req.1) = false := by
    rw [List.any_eq_false]
    intro p hp
    simp [h p hp]
  simp only [buildStep, buildChoice]
  by_cases h1 : ((env.avail req.1).length == 0) = true
  · rw [if_pos h1, if_pos h1]
  · rw [if_neg h1, if_neg h1]
    by_cases h2 : (decide ((env.avail req.1).length < req.2) && !auto &&
        !(env.acceptReduced req.1)) = true
    · rw [if_pos h2, if_pos h2]
    · rw [if_neg h2, if_neg h2]
      simp only [dictInsert, hany]
      rw [if_neg (by simp)]

theorem buildOrder_go (env : PurchaseEnv) (auto : Bool) :
    ∀ (requests : List (String × Nat)) (d : List (String × List String)),
      (∀ r ∈ requests, ∀ p ∈ d, (p.1 == r.1) = false) →
      (requests.map Prod.fst).Nodup →
      requests.foldl (buildStep env auto) d =
        d ++ requests.filterMap (buildChoice env auto)
  | [], d, _, _ => by simp
  | req :: rest, d, hd, hnd => by
    have hnd1 : (rest.map Prod.fst).Nodup := by
      simp only [List.map_cons, List.nodup_cons] at hnd
      exact hnd.2
    have hnotin : req.1 ∉ rest.map Prod.fst := by
      simp only [List.map_cons, List.nodup_cons] at hnd
      exact hnd.1
    rw [List.foldl_cons]
    rw [buildStep_eq env auto d req (hd req (List.mem_cons_self req rest))]
    cases hbc : buildChoice env auto req with
    | none =>
      simp only [List.filterMap_cons, hbc]
      exact buildOrder_go env auto rest d
        (fun r hr p hp => hd r (List.mem_cons_of_mem req hr) p hp) hnd1
    | some e =>
      simp only [List.filterMap_cons, hbc]
      have hkey : e.1 = req.1 := buildChoice_key env auto req e hbc
      have hd2 : ∀ r ∈ rest, ∀ p ∈ d ++ [e], (p.1 == r.1) = false := by
        intro r hr p hp
        rcases List.mem_append.mp hp with hp1 | hp2
        · exact hd r (List.mem_cons_of_mem req hr) p hp1
        · have hpe : p = e := by simpa using hp2
          rw [hpe, hkey, beq_eq_false_iff_ne]
          intro hre
          have h1 : r.1 ∈ rest.map Prod.fst := List.mem_map_of_mem Prod.fst hr
          rw [← hre] at h1
          exact hnotin h1
      rw [buildOrder_go env auto rest (d ++ [e]) hd2 hnd1]
      simp

theorem buildOrder_eq_filterMap (env : PurchaseEnv) (auto : Bool)
    (requests : List (String × Nat)) (hnd : (requests.map Prod.fst).Nodup) :
    buildOrder env auto requests = requests.filterMap (buildChoice env auto) := by
  have h := buildOrder_go env auto requests []
    (by intro r _ p hp; cases hp) hnd
  simpa [buildOrder] using h

theorem filter_map_key_ne (k ac : String) (ns : List String)
    (h : (k == ac) = false) :
    (ns.map (fun n => (k, n))).filter (fun p : String × String => p.1 == ac) = [] := by
  induction ns with
  | nil => rfl
  | cons n rest ih => simp [List.filter_cons, h, ih]

theorem filter_map_key_eq (k ac : String) (ns : List String)
    (h : (k == ac) = true) :
    (ns.map (fun n => (k, n))).filter (fun p : String × String => p.1 == ac) =
      ns.map (fun n => (k, n)) := by
  induction ns with
  | nil => rfl
  | cons n rest ih => simp [List.filter_cons, h, ih]

theorem pairsOf_filter_ne (ac : String) (order : List (String × List String))
    (h : ∀ e ∈ order, (e.1 == ac) = false) :
    (pairsOf order).filter (fun p => p.1 == ac) = [] := by
  induction order with
  | nil => rfl
  | cons e rest ih =>
    simp only [pairsOf]
    rw [List.filter_append]
    rw [ih (fun x hx => h x (List.mem_cons_of_mem e hx))]
    rw [List.append_nil]
    exact filter_map_key_ne e.1 ac e.2 (h e (List.mem_cons_self e rest))

theorem filterMap_keys_ne (env : PurchaseEnv) (auto : Bool)
    (rest : List (String × Nat)) (ac : String)
    (h : ∀ r ∈ rest, (r.1 == ac) = false) :
    ∀ e ∈ rest.filterMap (buildChoice env auto), (e.1 == ac) = false := by
  intro e he
  obtain ⟨r, hr, hre⟩ := List.mem_filterMap.mp he
  rw [buildChoice_key env auto r e hre]
  exact h r hr

theorem pairsOf_filter_req (env : PurchaseEnv) (auto : Bool) :
    ∀ (requests : List (String × Nat)) (ac : String) (q : Nat),
      (ac, q) ∈ requests → (requests.map Prod.fst).Nodup →
      (pairsOf (requests.filterMap (buildChoice env auto))).filter
          (fun p => p.1 == ac) =
        (match buildChoice env auto (ac, q) with
          | none => []
          | some e => e.2.map (fun n => (ac, n)))
  | [], ac, q, hmem, _ => absurd hmem (List.not_mem_nil _)
  | req :: rest, ac, q, hmem, hnd => by
    have hnd1 : (rest.map Prod.fst).Nodup := by
      simp only [List.map_cons, List.nodup_cons] at hnd
      exact hnd.2
    have hnotin : req.1 ∉ rest.map Prod.fst := by
      simp only [List.map_cons, List.nodup_cons] at hnd
      exact hnd.1
    rcases List.mem_cons.mp hmem with heq | hrest
    · have hae : req.1 = ac := by rw [← heq]
      have hrest_ne : ∀ r ∈ rest, (r.1 == ac) = false := by
        intro r hr
        rw [beq_eq_false_iff_ne]
        intro hre
        have h1 : r.1 ∈ rest.map Prod.fst := List.mem_map_of_mem Prod.fst hr
        rw [hre, ← hae] at h1
        exact hnotin h1
      cases hbc : buildChoice env auto req with
      | none =>
        simp only [List.filterMap_cons, hbc]
        rw [pairsOf_filter_ne ac _ (filterMap_keys_ne env auto rest ac hrest_ne)]
        rw [← heq] at hbc
        simp only [hbc]
      | some e =>
        simp only [List.filterMap_cons, hbc]
        simp only [pairsOf]
        rw [List.filter_append]
        have hkey : e.1 = req.1 := buildChoice_key env auto req e hbc
        have hk : (e.1 == ac) = true := by
          rw [hkey, hae]
          exact beq_self_eq_true ac
        rw [filter_map_key_eq e.1 ac e.2 hk]
        rw [pairsOf_filter_ne ac _ (filterMap_keys_ne env auto rest ac hrest_ne)]
        rw [List.append_nil]
        rw [← heq] at hbc
        simp only [hbc]
        rw [hkey, hae]
    · have hne : (req.1 == ac) = false := by
        rw [beq_eq_false_iff_ne]
        intro hre
        have h1 : ac ∈ rest.map Prod.fst := List.mem_map_of_mem Prod.fst hrest
        rw [← hre] at h1
        exact hnotin h1
      cases hbc : buildChoice env auto req with
      | none =>
        simp only [List.filterMap_cons, hbc]
        exact pairsOf_filter_req env auto rest ac q hrest hnd1
      | some e =>
        simp only [List.filterMap_cons, hbc]
        simp only [pairsOf]
        rw [List.filter_append]
        have hkey : e.1 = req.1 := buildChoice_key env auto req e hbc
        rw [filter_map_key_ne e.1 ac e.2 (by rw [hkey]; exact hne)]
        rw [List.nil_append]
        exact pairsOf_filter_req env auto rest ac q hrest hnd1

theorem take_min (l : List String) (n : Nat) :
    l.take n = l.take (min l.length n) := by
  rcases Nat.le_total l.length n with h | h
  · rw [Nat.min_eq_left h, List.take_of_length_le h, List.take_length]
  · rw [Nat.min_eq_right h]

/-- Claim C5 counterexample: the per-request `min(a, q)` attempt count fails
(i) when the operator declines the final order confirmation (zero attempts,
not `min 3 2 = 2`), and (ii) when the same area code occurs twice in the
request CSV (the dict entry is overwritten, so the request `("313", 1)` sees
2 attempts for its area code, not `min 3 1 = 1`). -/
theorem purchase_min_attempts_cex :
    (attemptsFor (purchase envNoConfirm [("313", 2)] true none) "313" = 0 ∧
      min (envNoConfirm.avail "313").length 2 = 2) ∧
    (attemptsFor (purchase envOk [("313", 1), ("313", 2)] true none) "313" = 2 ∧
      (("313", 1) ∈ [(("313" : String), (1 : Nat)), ("313", 2)]) ∧
      min (envOk.avail "313").length 1 = 1) := by
  refine ⟨⟨by decide, by decide⟩, by decide, by decide, by decide⟩

/-- Claim C5 (amended): assume the operator confirms the final order and each
area code appears at most once among the requests.  Then for every requested
`(area_code, quantity q)` with `a` available numbers: if `a = 0` the area
code is skipped with zero purchase attempts; if `auto_purchase` is true the
number of purchase attempts for that area code is `min(a, q)`, taken as the
first `min(a, q)` available numbers in provider order; and if `a < q` with
`auto_purchase` false and the operator declining the reduced-quantity prompt,
zero attempts are made for it. -/
theorem purchase_min_attempts (env : PurchaseEnv) (requests : List (String × Nat))
    (auto : Bool) (svc : Option String)
    (hc : env.finalConfirm = true)
    (hnd : (requests.map Prod.fst).Nodup) :
    ∀ req ∈ requests,
      ((env.avail req.1).length = 0 →
        attemptsFor (purchase env requests auto svc) req.1 = 0) ∧
      (auto = true →
        attemptsFor (purchase env requests auto svc) req.1 =
          min (env.avail req.1).length req.2 ∧
        numbersFor (purchase env requests auto svc) req.1 =
          (env.avail req.1).take (min (env.avail req.1).length req.2)) ∧
      ((env.avail req.1).length < req.2 → auto = false →
        env.acceptReduced req.1 = false →
        attemptsFor (purchase env requests auto svc) req.1 = 0) := by
  intro req hreq
  obtain ⟨ac, q⟩ := req
  have hcalls : (purchase env requests auto svc).purchaseCalls =
      pairsOf (buildOrder env auto requests) := by
    rw [purchase_components env requests auto svc hc]
  have hfilter : (purchase env requests auto svc).purchaseCalls.filter
      (fun p => p.1 == ac) =
      (match buildChoice env auto (ac, q) with
        | none => []
        | some e => e.2.map (fun n => (ac, n))) := by
    rw [hcalls, buildOrder_eq_filterMap env auto requests hnd]
    exact pairsOf_filter_req env auto requests ac q hreq hnd
  refine ⟨?_, ?_, ?_⟩
  · intro h0
    have hbc : buildChoice env auto (ac, q) = none := by
      simp only [buildChoice]
      rw [if_pos (by simpa using h0)]
    unfold attemptsFor
    rw [hfilter]
    simp only [hbc, List.length_nil]
  · intro hauto
    subst hauto
    by_cases h0 : (env.avail ac).length = 0
    · have hbc : buildChoice env true (ac, q) = none := by
        simp only [buildChoice]
        rw [if_pos (by simpa using h0)]
      have hempty : env.avail ac = [] := List.length_eq_zero.mp h0
      constructor
      · unfold attemptsFor
        rw [hfilter]
        simp only [hbc, List.length_nil]
        rw [h0, Nat.zero_min]
      · unfold numbersFor
        rw [hfilter]
        simp only [hbc]
        rw [hempty]
        simp
    · have hbc : buildChoice env true (ac, q) =
          some (ac, (env.avail ac).take q) := by
        simp only [buildChoice]
        rw [if_neg (by simpa using h0)]
        rw [if_neg (by simp)]
      constructor
      · unfold attemptsFor
        rw [hfilter]
        simp only [hbc, List.length_map, List.length_take]
        exact Nat.min_comm q (env.avail ac).length
      · unfold numbersFor
        rw [hfilter]
        simp only [hbc, List.map_map]
        rw [← take_min]
        simp
  · intro hlt hauto haccept
    have hbc : buildChoice env auto (ac, q) = none := by
      simp only [buildChoice]
      by_cases h1 : ((env.avail ac).length == 0) = true
      · rw [if_pos h1]
      · rw [if_neg h1]
        have hcond : (decide ((env.avail ac).length < q) && !auto &&
            !(env.acceptReduced ac)) = true := by
          rw [hauto, haccept]
          simp [hlt]
        rw [if_pos hcond]
    unfold attemptsFor
    rw [hfilter]
    simp only [hbc, List.length_nil]

/-- Claim C5 witness: with three numbers available in area code 313, a
confirmed order and `auto_purchase`, the single request `("313", 2)` yields
`min 3 2 = 2` attempts on the first two available numbers. -/
theorem purchase_min_attempts_witness :
    ((envOk.avail "313").length = 0 →
        attemptsFor (purchase envOk [("313", 2)] true none) "313" = 0) ∧
      (true = true →
        attemptsFor (purchase envOk [("313", 2)] true none) "313" =
          min (envOk.avail "313").length 2 ∧
        numbersFor (purchase envOk [("313", 2)] true none) "313" =
          (envOk.avail "313").take (min (envOk.avail "313").length 2)) ∧
      ((envOk.avail "313").length < 2 → true = false →
        envOk.acceptReduced "313" = false →
        attemptsFor (purchase envOk [("313", 2)] true none) "313" = 0) :=
  purchase_min_attempts envOk [("313", 2)] true none rfl (by decide)
    ("313", 2) (by decide)

/-- Claim C2: when the availability query returns an empty list, the inner
pass reports `True` ("query again") with the counter unchanged, so the outer
loop of `purchase_bulk` never terminates — no amount of fuel makes it stop,
for any counter value (including the initial 400) — contradicting the claimed
stop-on-empty-pass behavior. -/
theorem purchase_bulk_empty_inventory_loops :
    (∀ (purchaseOk : String → Bool) (c : Int),
      buyNumbersPass purchaseOk [] c = (c, true)) ∧
    (∀ (purchaseOk : String → Bool) (fuel pass : Nat) (c : Int),
      bulkLoop (fun _ => []) purchaseOk fuel pass c = none) := by
  constructor
  · intro purchaseOk c
    rfl
  · intro purchaseOk fuel
    induction fuel with
    | zero => intro pass c; rfl
    | succ n ih =>
      intro pass c
      simp only [bulkLoop, buyNumbersPass, if_pos]
      exact ih (pass + 1) c

end Afm
